import Mathlib

/-!
A Lean model of the query-construction and response-aggregation core of the
FDA Manufacturer Finder (`src/app.py`), together with theorems checking the
specification's claims about it.

Python strings are modelled as Lean `String`, with the Python string
operations (`upper`, `strip`, `isdigit`, lexicographic comparison,
`sorted`) re-implemented structurally over `String.data` so that every
definition evaluates by kernel reduction.  HTTP calls are modelled by an
oracle `Nat → Http α` mapping a request offset to its outcome: either a
parsed response (status code plus decoded `results` array) or a raised
exception (`requests` timeout / connection error, which `app.py` never
catches).
-/

set_option maxRecDepth 4000

/-- Python `str.upper` (ASCII), as used by `pc.upper()` in `app.py`. -/
def pyUpper (s : String) : String :=
  ⟨s.data.map Char.toUpper⟩

/-- Python `str.strip`: drop whitespace from both ends. -/
def pyStrip (s : String) : String :=
  ⟨((s.data.dropWhile Char.isWhitespace).reverse.dropWhile Char.isWhitespace).reverse⟩

/-- Python `str.isdigit` (ASCII): non-empty and all digits. -/
def pyIsDigit (s : String) : Bool :=
  !s.data.isEmpty && s.data.all Char.isDigit

/-- Value of a digit string, as Python `int(...)` on the strings accepted by `pyIsDigit`. -/
def pyDigitsToNat (s : String) : Nat :=
  s.data.foldl (fun acc c => acc * 10 + (c.toNat - 48)) 0

/-- Lexicographic comparison of code-point lists (Python `<=` on strings). -/
def strLeB : List Char → List Char → Bool
  | [], _ => true
  | _ :: _, [] => false
  | a :: as, b :: bs =>
    if a.toNat < b.toNat then true
    else if b.toNat < a.toNat then false
    else strLeB as bs

/-- Python string order `a <= b`. -/
def pyLe (a b : String) : Prop :=
  strLeB a.data b.data = true

instance : DecidableRel pyLe :=
  fun a b => inferInstanceAs (Decidable (strLeB a.data b.data = true))

/-- Python `A or B` on optional strings: `B` when `A` is falsy (absent or empty). -/
def pyOrElse (a b : Option String) : Option String :=
  match a with
  | some s => if s = "" then b else some s
  | none => b

/-- Rendering an optional value inside a Python f-string: `None` renders as `"None"`. -/
def pyShow (o : Option String) : String :=
  match o with
  | some s => s
  | none => "None"

/-- Python `x or ""` inside an f-string: falsy values render as the empty string. -/
def pyOrEmptyStr (o : Option String) : String :=
  match o with
  | some s => s
  | none => ""

/-- `pandas.DataFrame.drop_duplicates` on a list: keep the first occurrence of
each value, preserving order.  `seen` accumulates the values already kept. -/
def dropDupAux {α : Type} [DecidableEq α] (seen : List α) : List α → List α
  | [] => []
  | x :: xs => if x ∈ seen then dropDupAux seen xs else x :: dropDupAux (x :: seen) xs

/-- `drop_duplicates`: first occurrences, in order. -/
def drop_duplicates {α : Type} [DecidableEq α] (l : List α) : List α :=
  dropDupAux [] l

/-- Python `sorted(set(l))` for strings: the distinct elements in ascending order. -/
def py_sorted_set (l : List String) : List String :=
  drop_duplicates (List.insertionSort pyLe l)

/-- Outcome of one `requests.get` call: a raised exception (timeout, connection
failure — `app.py` installs no handler for these) or a decoded response with
its HTTP status code and the parsed `results` array of the JSON payload. -/
inductive Http (α : Type) where
  | raise : Http α
  | resp : (status : Nat) → (results : List α) → Http α
deriving DecidableEq

/-- `build_reglisting_search` from `src/app.py` (lines 48-60): the openFDA
search string for Registrations and Listings.  The country clause (when the
ISO-2 code is truthy) and one clause per truthy product code, upper-cased,
joined by `+`. -/
def build_reglisting_search (iso2 : String) (product_codes : List String) : String :=
  let pcParts := product_codes.filterMap fun pc =>
    if pc = "" then none else some ("products.product_code:" ++ pyUpper pc)
  let parts := (if iso2 = "" then [] else ["registration.iso_country_code:" ++ iso2]) ++ pcParts
  String.intercalate "+" parts

/-- `country_to_iso2` from `src/app.py` (lines 23-33).  The `pycountry`
name lookup is abstracted as `registry`: `registry s` is the looked-up
alpha-2 code, or `none` when `pycountry.countries.lookup` raises. -/
def country_to_iso2 (registry : String → Option String) (name_or_code : String) : Option String :=
  if name_or_code = "" then none
  else
    let s := pyStrip name_or_code
    if s.length = 2 then some (pyUpper s)
    else registry s

/-- One record of the classification endpoint, restricted to the only field
`lookup_product_codes_by_name` reads. -/
structure ClassRec where
  product_code : Option String
deriving DecidableEq

/-- `lookup_product_codes_by_name` from `src/app.py` (lines 35-46), applied to
the outcome of its single `requests.get` call.  A raised exception propagates
(modelled as `Except.error`); a non-200 status yields `[]`; a 200 response
yields the sorted set of truthy product codes. -/
def lookup_product_codes_by_name (resp : Http ClassRec) : Except Unit (List String) :=
  match resp with
  | Http.raise => Except.error ()
  | Http.resp status results =>
    if status ≠ 200 then Except.ok []
    else
      Except.ok (py_sorted_set
        (((results.filterMap ClassRec.product_code)).filter (fun s => decide (s ≠ ""))))

/-- The paging loop of `fetch_reglisting` from `src/app.py` (lines 62-90).
State: remaining fuel (the loop body runs at most `maxRecords` times, since
every iteration that continues adds at least one record), accumulated `rows`,
current `skip` offset, count `fetched`, and the list of offsets requested so
far.  Returns the rows (or a propagated exception) and the requested offsets. -/
def fetchLoop {α : Type} (pages : Nat → Http α) (limit maxRecords : Nat) :
    Nat → List α → Nat → Nat → List Nat → Except Unit (List α) × List Nat
  | 0, rows, _, _, calls => (Except.ok rows, calls)
  | fuel + 1, rows, skip, fetched, calls =>
    if fetched < maxRecords then
      match pages skip with
      | Http.raise => (Except.error (), calls ++ [skip])
      | Http.resp status results =>
        if status ≠ 200 then (Except.ok rows, calls ++ [skip])
        else if results.isEmpty then (Except.ok rows, calls ++ [skip])
        else
          let n := results.length
          if n < limit then (Except.ok (rows ++ results), calls ++ [skip])
          else fetchLoop pages limit maxRecords fuel (rows ++ results) (skip + n) (fetched + n) (calls ++ [skip])
    else (Except.ok rows, calls)

/-- `fetch_reglisting` from `src/app.py`: page size fixed at 1000, starting at
offset 0 with nothing accumulated. -/
def fetch_reglisting {α : Type} (pages : Nat → Http α) (maxRecords : Nat) :
    Except Unit (List α) × List Nat :=
  fetchLoop pages 1000 maxRecords (maxRecords + 1) [] 0 0 []

/-- An endpoint that always returns a full page of 1000 records with status 200. -/
def pagesAlwaysFull : Nat → Http Unit :=
  fun _ => Http.resp 200 (List.replicate 1000 ())

/-- An endpoint whose first page is full and whose second request raises a
timeout / connection error. -/
def pagesThenRaise : Nat → Http Unit :=
  fun skip => if skip = 0 then Http.resp 200 (List.replicate 1000 ()) else Http.raise

/-- The `registration` sub-object of a Registrations and Listings record,
restricted to the fields `normalize_reglisting_rows` reads. -/
structure Registration where
  fei_number : Option String
  name : Option String
  city : Option String
  state_code : Option String
  state_province : Option String
  iso_country_code : Option String
deriving DecidableEq

/-- A `registration` block with every field absent (Python `{}` after the
`r.get("registration", {}) or {}` fallback). -/
def emptyRegistration : Registration :=
  ⟨none, none, none, none, none, none⟩

/-- One entry of the nested `products` list, restricted to the field read. -/
structure ListedProduct where
  product_code : Option String
deriving DecidableEq

/-- The `establishment_type` field: absent, a bare string, or a list of
strings (the code only special-cases the list shape). -/
inductive EstTypeField where
  | absent : EstTypeField
  | single : String → EstTypeField
  | multiple : List String → EstTypeField
deriving DecidableEq

/-- A raw Registrations and Listings record as `normalize_reglisting_rows`
consumes it. -/
structure RegListingRecord where
  registration : Option Registration
  products : Option (List ListedProduct)
  establishment_type : EstTypeField
deriving DecidableEq

/-- One output row of `normalize_reglisting_rows`: the seven displayed fields. -/
structure Row where
  fei : Option String
  firm_name : Option String
  city : Option String
  state_prov : Option String
  country : Option String
  establishment_types : Option String
  product_codes : String
deriving DecidableEq

/-- The per-record body of `normalize_reglisting_rows` from `src/app.py`
(lines 92-109): flatten one raw record into a `Row`. -/
def toRow (r : RegListingRecord) : Row :=
  let reg := r.registration.getD emptyRegistration
  let products := r.products.getD []
  let codes := (products.filterMap ListedProduct.product_code).filter (fun s => decide (s ≠ ""))
  let est_types : Option String :=
    match r.establishment_type with
    | EstTypeField.absent => none
    | EstTypeField.single s => some s
    | EstTypeField.multiple l => some (String.intercalate ", " (py_sorted_set l))
  ⟨reg.fei_number, reg.name, reg.city,
    pyOrElse reg.state_code reg.state_province,
    reg.iso_country_code, est_types,
    String.intercalate ", " (py_sorted_set codes)⟩

/-- `normalize_reglisting_rows` up to the `drop_duplicates()` call (line 110):
flatten every record and collapse exact-duplicate rows, keeping first
occurrences. -/
def normalize_reglisting_rows (rows : List RegListingRecord) : List Row :=
  drop_duplicates (rows.map toRow)

/-- The `Firm Label` expression of line 112 of `src/app.py`:
`f'{x["Firm Name"]} — {x["City"] or ""} {x["State/Prov"] or ""} ({x["Country"]})'`. -/
def firm_label (row : Row) : String :=
  pyShow row.firm_name ++ " — " ++ pyOrEmptyStr row.city ++ " " ++ pyOrEmptyStr row.state_prov
    ++ " (" ++ pyShow row.country ++ ")"

/-- The full normalizer output: the deduplicated rows, each paired with its
appended `Firm Label` column. -/
def normalize_with_labels (rows : List RegListingRecord) : List (Row × String) :=
  (normalize_reglisting_rows rows).map (fun row => (row, firm_label row))

/-- A raw record with every part absent. -/
def blankRecord : RegListingRecord :=
  ⟨none, none, EstTypeField.absent⟩

/-- `build_maude_queries` from `src/app.py` (lines 174-191): the two search
strings tried in order (manufacturer_name, then device.manufacturer_d_name),
each narrowed by the product-code filters when any are present. -/
def build_maude_queries (firm_name : String) (product_codes : List String) : List String :=
  let pcs := product_codes.filter (fun pc => decide (pc ≠ ""))
  if pcs.isEmpty then
    ["manufacturer_name:\"" ++ firm_name ++ "\"",
     "device.manufacturer_d_name:\"" ++ firm_name ++ "\""]
  else
    let pcFilters := pcs.map (fun pc => "device.product_code:" ++ pc)
    ["manufacturer_name:\"" ++ firm_name ++ "\"+(" ++ String.intercalate "+" pcFilters ++ ")",
     "device.manufacturer_d_name:\"" ++ firm_name ++ "\"+(" ++ String.intercalate "+" pcFilters ++ ")"]

/-- One MAUDE event record, restricted to the two date fields read. -/
structure EventRec where
  date_received : Option String
  event_date : Option String
deriving DecidableEq

/-- `rec.get("date_received") or rec.get("event_date")`: the second field when
the first is absent or empty. -/
def eventDateStr (rec : EventRec) : Option String :=
  pyOrElse rec.date_received rec.event_date

/-- The per-record year extraction of `fetch_maude_year_counts` (lines
215-223): skip records with a falsy date string, take the first four
characters, and keep them only when they pass `isdigit`. -/
def recYear (rec : EventRec) : Option String :=
  match eventDateStr rec with
  | none => none
  | some d =>
    if d = "" then none
    else
      let year := d.take 4
      if pyIsDigit year then some year else none

/-- `year_counts[year] = year_counts.get(year, 0) + 1` on an
insertion-ordered association list (a Python dict). -/
def bump (counts : List (String × Nat)) (y : String) : List (String × Nat) :=
  match counts with
  | [] => [(y, 1)]
  | (k, v) :: rest => if k = y then (k, v + 1) :: rest else (k, v) :: bump rest y

/-- The inner paging loop of `fetch_maude_year_counts` (lines 206-228) for one
query: accumulate year counts across pages until a raised exception, a non-200
status, an empty page, a short page, or the record cap.  Returns the updated
counts (or a propagated exception) and the offsets requested. -/
def maudeInner (pages : Nat → Http EventRec) (limit maxRecords : Nat) :
    Nat → List (String × Nat) → Nat → Nat → List Nat →
    Except Unit (List (String × Nat)) × List Nat
  | 0, counts, _, _, calls => (Except.ok counts, calls)
  | fuel + 1, counts, skip, fetched, calls =>
    if fetched < maxRecords then
      match pages skip with
      | Http.raise => (Except.error (), calls ++ [skip])
      | Http.resp status results =>
        if status ≠ 200 then (Except.ok counts, calls ++ [skip])
        else if results.isEmpty then (Except.ok counts, calls ++ [skip])
        else
          let counts2 := results.foldl
            (fun cs rec => match recYear rec with | none => cs | some y => bump cs y) counts
          let n := results.length
          if n < limit then (Except.ok counts2, calls ++ [skip])
          else maudeInner pages limit maxRecords fuel counts2 (skip + n) (fetched + n) (calls ++ [skip])
    else (Except.ok counts, calls)

/-- The outer strategy loop of `fetch_maude_year_counts` (lines 203-231): run
each query in turn, and stop as soon as `year_counts` is non-empty after a
query (`if year_counts: break`).  Calls are tagged with the strategy index. -/
def maudeOuter (limit maxRecords : Nat) :
    List (Nat → Http EventRec) → Nat → List (String × Nat) → List (Nat × Nat) →
    Except Unit (List (String × Nat)) × List (Nat × Nat)
  | [], _, counts, calls => (Except.ok counts, calls)
  | q :: rest, i, counts, calls =>
    match maudeInner q limit maxRecords (maxRecords + 1) counts 0 0 [] with
    | (Except.error e, innerCalls) => (Except.error e, calls ++ innerCalls.map (fun s => (i, s)))
    | (Except.ok counts2, innerCalls) =>
      if counts2.isEmpty then
        maudeOuter limit maxRecords rest (i + 1) counts2 (calls ++ innerCalls.map (fun s => (i, s)))
      else (Except.ok counts2, calls ++ innerCalls.map (fun s => (i, s)))

/-- Order on count pairs used for `sorted(year_counts.items())`. -/
def yearKeyLe (a b : String × Nat) : Prop :=
  pyLe a.1 b.1

instance : DecidableRel yearKeyLe :=
  fun a b => inferInstanceAs (Decidable (pyLe a.1 b.1))

/-- Order on count pairs used for `df.sort_values("year")` after
`astype(int)`. -/
def yearIntLe (a b : String × Nat) : Prop :=
  pyDigitsToNat a.1 ≤ pyDigitsToNat b.1

instance : DecidableRel yearIntLe :=
  fun a b => inferInstanceAs (Decidable (pyDigitsToNat a.1 ≤ pyDigitsToNat b.1))

/-- `fetch_maude_year_counts` from `src/app.py` (lines 194-239), taking one
page oracle per query strategy.  The final per-year table is the accumulated
counts sorted by key string (`sorted(...)`) and then by numeric year
(`sort_values`); an empty count table is returned as the empty list. -/
def fetch_maude_year_counts (strategies : List (Nat → Http EventRec)) (maxRecords : Nat) :
    Except Unit (List (String × Nat)) × List (Nat × Nat) :=
  match maudeOuter 1000 maxRecords strategies 0 [] [] with
  | (Except.error e, calls) => (Except.error e, calls)
  | (Except.ok counts, calls) =>
    (Except.ok (List.insertionSort yearIntLe (List.insertionSort yearKeyLe counts)), calls)

/-- A strategy whose every page is a single record carrying a well-formed
received date. -/
def maudeStratDated : Nat → Http EventRec :=
  fun _ => Http.resp 200 [⟨some "20240315", none⟩]

/-- A strategy whose every page is a single record carrying no date at all
(non-empty results, but nothing countable). -/
def maudeStratUndated : Nat → Http EventRec :=
  fun _ => Http.resp 200 [⟨none, none⟩]

/-- A strategy whose every page is empty. -/
def maudeStratEmpty : Nat → Http EventRec :=
  fun _ => Http.resp 200 []

/-- Modelled from the spec (section 4.6): the monthly Time-Series Aggregator is
not part of `src/app.py` (which carries only the yearly-count variant
`fetch_maude_year_counts`); these definitions follow the spec's words.  Parse a
compact `YYYYMM...` date into an absolute month index (year times 12 plus the
zero-based month), rejecting malformed dates and months outside 1..12. -/
def parseMonth (s : String) : Option Nat :=
  let y := s.take 4
  let m := (s.drop 4).take 2
  if pyIsDigit y ∧ pyIsDigit m then
    let mn := pyDigitsToNat m
    if 1 ≤ mn ∧ mn ≤ 12 then some (pyDigitsToNat y * 12 + (mn - 1)) else none
  else none

/-- Modelled from the spec (section 4.6): the trailing window of `n`
consecutive whole calendar months ending at the current month `now`
(inclusive), in chronological order, as absolute month indices. -/
def month_window (now n : Nat) : List Nat :=
  (List.range n).map (fun i => now + 1 - n + i)

/-- Modelled from the spec (section 4.6): the number of records falling in
month `m`; records with unparseable or out-of-range dates match no bucket. -/
def count_events_month (records : List String) (m : Nat) : Nat :=
  (records.filter (fun r => decide (parseMonth r = some m))).length

/-- Modelled from the spec (section 4.6): the zero-filled per-month count
series over the trailing `n`-month window ending at `now` — every month of the
window appears exactly once, paired with its record count. -/
def aggregate_monthly (now n : Nat) (records : List String) : List (Nat × Nat) :=
  (month_window now n).map (fun m => (m, count_events_month records m))

theorem mem_dropDupAux {α : Type} [DecidableEq α] {a : α} :
    ∀ (l seen : List α), a ∈ dropDupAux seen l ↔ a ∈ l ∧ a ∉ seen := by
  intro l
  induction l with
  | nil => intro seen; simp [dropDupAux]
  | cons x xs ih =>
    intro seen
    rw [dropDupAux]
    by_cases hx : x ∈ seen
    · rw [if_pos hx, ih]
      constructor
      · rintro ⟨hxs, hs⟩
        exact ⟨List.mem_cons_of_mem _ hxs, hs⟩
      · rintro ⟨hmem, hs⟩
        rcases List.mem_cons.mp hmem with rfl | hxs
        · exact absurd hx hs
        · exact ⟨hxs, hs⟩
    · rw [if_neg hx]
      constructor
      · intro hmem
        rcases List.mem_cons.mp hmem with rfl | hmem2
        · exact ⟨List.mem_cons_self _ _, hx⟩
        · have h2 := (ih (x :: seen)).mp hmem2
          exact ⟨List.mem_cons_of_mem _ h2.1, fun hs => h2.2 (List.mem_cons_of_mem _ hs)⟩
      · rintro ⟨hmem, hs⟩
        rcases List.mem_cons.mp hmem with rfl | hxs
        · exact List.mem_cons_self _ _
        · by_cases hax : a = x
          · subst hax
            exact List.mem_cons_self _ _
          · refine List.mem_cons_of_mem _ ((ih (x :: seen)).mpr ⟨hxs, ?_⟩)
            intro hmem3
            rcases List.mem_cons.mp hmem3 with h1 | h2
            · exact hax h1
            · exact hs h2

theorem dropDupAux_nodup {α : Type} [DecidableEq α] :
    ∀ (l seen : List α), (dropDupAux seen l).Nodup := by
  intro l
  induction l with
  | nil => intro seen; simp [dropDupAux]
  | cons x xs ih =>
    intro seen
    rw [dropDupAux]
    by_cases hx : x ∈ seen
    · rw [if_pos hx]
      exact ih seen
    · rw [if_neg hx]
      refine List.nodup_cons.mpr ⟨?_, ih _⟩
      intro hmem
      exact ((mem_dropDupAux xs (x :: seen)).mp hmem).2 (List.mem_cons_self _ _)

theorem dropDupAux_sublist {α : Type} [DecidableEq α] :
    ∀ (l seen : List α), (dropDupAux seen l).Sublist l := by
  intro l
  induction l with
  | nil => intro seen; simp [dropDupAux]
  | cons x xs ih =>
    intro seen
    rw [dropDupAux]
    by_cases hx : x ∈ seen
    · rw [if_pos hx]
      exact (ih seen).cons x
    · rw [if_neg hx]
      exact (ih (x :: seen)).cons₂ x

theorem mem_drop_duplicates {α : Type} [DecidableEq α] {a : α} (l : List α) :
    a ∈ drop_duplicates l ↔ a ∈ l := by
  rw [drop_duplicates, mem_dropDupAux]
  simp

theorem drop_duplicates_nodup {α : Type} [DecidableEq α] (l : List α) :
    (drop_duplicates l).Nodup :=
  dropDupAux_nodup l []

theorem drop_duplicates_sublist {α : Type} [DecidableEq α] (l : List α) :
    (drop_duplicates l).Sublist l :=
  dropDupAux_sublist l []

theorem strLeB_total : ∀ (as bs : List Char), strLeB as bs = true ∨ strLeB bs as = true := by
  intro as
  induction as with
  | nil => intro bs; exact Or.inl rfl
  | cons a as ih =>
    intro bs
    cases bs with
    | nil => exact Or.inr rfl
    | cons b bs2 =>
      simp only [strLeB]
      by_cases h1 : a.toNat < b.toNat
      · left
        rw [if_pos h1]
      · by_cases h2 : b.toNat < a.toNat
        · right
          rw [if_pos h2]
        · rw [if_neg h1, if_neg h2, if_neg h2, if_neg h1]
          exact ih bs2

theorem strLeB_trans :
    ∀ (as bs cs : List Char), strLeB as bs = true → strLeB bs cs = true → strLeB as cs = true := by
  intro as
  induction as with
  | nil => intro bs cs _ _; rfl
  | cons a as ih =>
    intro bs cs hab hbc
    cases bs with
    | nil => exact absurd hab (by simp [strLeB])
    | cons b bs2 =>
      cases cs with
      | nil => exact absurd hbc (by simp [strLeB])
      | cons c cs2 =>
        simp only [strLeB] at hab hbc ⊢
        split_ifs at hab hbc ⊢ with h1 h2 h3 h4 h5 h6 <;>
          first
          | rfl
          | omega
          | (exact ih bs2 cs2 hab hbc)

theorem pyLe_total (a b : String) : pyLe a b ∨ pyLe b a :=
  strLeB_total a.data b.data

theorem pyLe_trans {a b c : String} (hab : pyLe a b) (hbc : pyLe b c) : pyLe a c :=
  strLeB_trans a.data b.data c.data hab hbc

theorem pairwise_orderedInsert (x : String) :
    ∀ (l : List String), l.Pairwise pyLe → (List.orderedInsert pyLe x l).Pairwise pyLe := by
  intro l
  induction l with
  | nil => intro _; simp [List.orderedInsert]
  | cons b l2 ih =>
    intro hp
    rw [List.orderedInsert]
    obtain ⟨hb, hp2⟩ := List.pairwise_cons.mp hp
    by_cases hxb : pyLe x b
    · rw [if_pos hxb]
      refine List.pairwise_cons.mpr ⟨?_, hp⟩
      intro z hz
      rcases List.mem_cons.mp hz with rfl | hz2
      · exact hxb
      · exact pyLe_trans hxb (hb z hz2)
    · rw [if_neg hxb]
      have hbx : pyLe b x := (pyLe_total x b).resolve_left hxb
      refine List.pairwise_cons.mpr ⟨?_, ih hp2⟩
      intro z hz
      rcases (List.mem_orderedInsert pyLe).mp hz with rfl | hz2
      · exact hbx
      · exact hb z hz2

theorem pairwise_insertionSort : ∀ (l : List String), (List.insertionSort pyLe l).Pairwise pyLe := by
  intro l
  induction l with
  | nil => simp [List.insertionSort]
  | cons x l2 ih =>
    rw [List.insertionSort]
    exact pairwise_orderedInsert x _ ih

theorem py_sorted_set_pairwise (l : List String) : (py_sorted_set l).Pairwise pyLe :=
  List.Pairwise.sublist (drop_duplicates_sublist _) (pairwise_insertionSort l)

theorem py_sorted_set_nodup (l : List String) : (py_sorted_set l).Nodup :=
  drop_duplicates_nodup _

theorem mem_py_sorted_set {a : String} (l : List String) : a ∈ py_sorted_set l ↔ a ∈ l := by
  rw [py_sorted_set, mem_drop_duplicates]
  exact (List.perm_insertionSort pyLe l).mem_iff

/-- C1 counterexample: on country `"US"` and product codes `["dqd","fmf"]`, the
builder returns the plain `+`-joined (AND) clauses with no OR-group and no
`.exact` qualifier — the output differs from the OR-grouped exact-match query
the claim describes. -/
theorem claim1_counterexample :
    build_reglisting_search "US" ["dqd", "fmf"]
      = "registration.iso_country_code:US+products.product_code:DQD+products.product_code:FMF"
    ∧ build_reglisting_search "US" ["dqd", "fmf"]
      ≠ "registration.iso_country_code:US+(products.product_code.exact:DQD+OR+products.product_code.exact:FMF)" := by
  constructor
  · decide
  · decide

/-- C1 (amended): for country `"US"` and product codes `["dqd","fmf"]`, the
builder returns the country clause AND-joined by `+` with one plain
product-code clause per code, both codes upper-cased; multiple product codes
are AND-combined, and no `.exact` field qualifier is used. -/
theorem claim1_and_joined_query :
    build_reglisting_search "US" ["dqd", "fmf"]
      = "registration.iso_country_code:US+products.product_code:DQD+products.product_code:FMF" := by
  decide

/-- C7: the Search Expression Builder returns the empty string on an empty
filter set, and per-field falsy filters (empty country, empty product codes)
are simply omitted, never an error. -/
theorem claim7_empty_filter_empty_string :
    build_reglisting_search "" [] = ""
    ∧ build_reglisting_search "" ["", ""] = "" := by
  constructor
  · decide
  · decide

/-- C8 counterexample: `"  "` (two spaces) has length 2, yet the Country
Resolver strips it to the empty string, falls through to the registry lookup
(which fails, as `pycountry` does on `""`), and returns `none` rather than the
uppercased input. -/
theorem claim8_counterexample :
    ("  " : String).length = 2
    ∧ country_to_iso2 (fun _ => none) "  " ≠ some (pyUpper "  ") := by
  constructor
  · decide
  · decide

/-- C8 (amended): for every input of length 2 with no surrounding whitespace
(so that Python's `strip` leaves it unchanged), the Country Resolver returns
the uppercased input verbatim, for every registry — i.e. regardless of whether
it is a valid country code. -/
theorem claim8_two_char_verbatim (registry : String → Option String) (s : String)
    (htrim : pyStrip s = s) (hlen : s.length = 2) :
    country_to_iso2 registry s = some (pyUpper s) := by
  have hne : s ≠ "" := by
    intro h
    rw [h] at hlen
    exact absurd hlen (by decide)
  rw [country_to_iso2, if_neg hne]
  simp only [htrim, hlen, if_pos]

/-- C8 witness: the amended statement evaluated at `"us"`. -/
theorem claim8_witness :
    pyStrip "us" = "us" ∧ ("us" : String).length = 2
    ∧ country_to_iso2 (fun _ => none) "us" = some "US" := by
  refine ⟨by decide, by decide, ?_⟩
  have h := claim8_two_char_verbatim (fun _ => none) "us" (by decide) (by decide)
  simpa using h

/-- C4 counterexample: a raised timeout / connection error propagates out of
the Product-Code Resolver (there is no handler around `requests.get`), instead
of returning the empty list the claim describes. -/
theorem claim4_counterexample :
    lookup_product_codes_by_name Http.raise = Except.error ()
    ∧ lookup_product_codes_by_name Http.raise ≠ Except.ok [] := by
  refine ⟨rfl, ?_⟩
  intro h
  exact Except.noConfusion h

/-- C4 (amended): the Product-Code Resolver returns the distinct truthy product
codes of a 200 response as a deduplicated, ascending list; a non-success
status yields the empty list; but a raised timeout / connection error
propagates as an exception rather than yielding the empty list. -/
theorem claim4_resolver_behaviour (status : Nat) (results : List ClassRec) (codes : List String) :
    lookup_product_codes_by_name Http.raise = Except.error ()
    ∧ (status ≠ 200 → lookup_product_codes_by_name (Http.resp status results) = Except.ok [])
    ∧ (lookup_product_codes_by_name (Http.resp 200 results) = Except.ok codes →
        codes.Pairwise pyLe ∧ codes.Nodup
          ∧ ∀ x, x ∈ codes ↔ (x ≠ "" ∧ ∃ rec ∈ results, rec.product_code = some x)) := by
  refine ⟨rfl, ?_, ?_⟩
  · intro hst
    rw [lookup_product_codes_by_name, if_pos hst]
  · intro hok
    rw [lookup_product_codes_by_name] at hok
    rw [if_neg (by simp)] at hok
    have hcodes : codes
        = py_sorted_set ((results.filterMap ClassRec.product_code).filter (fun s => decide (s ≠ ""))) := by
      cases hok
      rfl
    subst hcodes
    refine ⟨py_sorted_set_pairwise _, py_sorted_set_nodup _, ?_⟩
    intro x
    rw [mem_py_sorted_set, List.mem_filter, List.mem_filterMap]
    constructor
    · rintro ⟨⟨rec, hrec, hpc⟩, hx⟩
      exact ⟨by simpa using hx, rec, hrec, hpc⟩
    · rintro ⟨hx, rec, hrec, hpc⟩
      exact ⟨⟨rec, hrec, hpc⟩, by simpa using hx⟩

/-- C4 witness: the amended statement evaluated on a 404 response and on the
spec's duplicate-codes example `["DQD","DQD","FMF"]`, which resolves to
`["DQD","FMF"]`. -/
theorem claim4_witness :
    (404 ≠ 200
      ∧ lookup_product_codes_by_name (Http.resp 404 [⟨some "DQD"⟩]) = Except.ok [])
    ∧ (lookup_product_codes_by_name
          (Http.resp 200 [⟨some "DQD"⟩, ⟨some "DQD"⟩, ⟨some "FMF"⟩]) = Except.ok ["DQD", "FMF"])
    ∧ (["DQD", "FMF"] : List String).Pairwise pyLe ∧ (["DQD", "FMF"] : List String).Nodup := by
  have heval : lookup_product_codes_by_name
      (Http.resp 200 [⟨some "DQD"⟩, ⟨some "DQD"⟩, ⟨some "FMF"⟩]) = Except.ok ["DQD", "FMF"] := by
    rfl
  refine ⟨⟨by decide, (claim4_resolver_behaviour 404 [⟨some "DQD"⟩] []).2.1 (by decide)⟩, heval, ?_, ?_⟩
  · exact ((claim4_resolver_behaviour 200 [⟨some "DQD"⟩, ⟨some "DQD"⟩, ⟨some "FMF"⟩]
      ["DQD", "FMF"]).2.2 heval).1
  · exact ((claim4_resolver_behaviour 200 [⟨some "DQD"⟩, ⟨some "DQD"⟩, ⟨some "FMF"⟩]
      ["DQD", "FMF"]).2.2 heval).2.1

theorem replicate_isEmpty_false {α : Type} (n : Nat) (a : α) (h : n ≠ 0) :
    (List.replicate n a).isEmpty = false := by
  cases n with
  | zero => exact absurd rfl h
  | succ m => rfl

theorem fetchLoop_step_full {α : Type} {pages : Nat → Http α} {limit maxRecords fuel : Nat}
    {rows : List α} {skip fetched : Nat} {calls : List Nat} {results : List α}
    (h : pages skip = Http.resp 200 results) (hfe : fetched < maxRecords)
    (hne : results.isEmpty = false) (hlen : ¬ results.length < limit) :
    fetchLoop pages limit maxRecords (fuel + 1) rows skip fetched calls
      = fetchLoop pages limit maxRecords fuel (rows ++ results) (skip + results.length)
          (fetched + results.length) (calls ++ [skip]) := by
  rw [fetchLoop, if_pos hfe, h]
  simp only [hne, hlen, if_false, ne_eq, not_true_eq_false, Bool.false_eq_true, ite_false]

theorem fetchLoop_stop_cap {α : Type} {pages : Nat → Http α} {limit maxRecords fuel : Nat}
    {rows : List α} {skip fetched : Nat} {calls : List Nat}
    (hfe : ¬ fetched < maxRecords) :
    fetchLoop pages limit maxRecords fuel rows skip fetched calls = (Except.ok rows, calls) := by
  cases fuel with
  | zero => rw [fetchLoop]
  | succ n => rw [fetchLoop, if_neg hfe]

theorem fetchLoop_step_raise {α : Type} {pages : Nat → Http α} {limit maxRecords fuel : Nat}
    {rows : List α} {skip fetched : Nat} {calls : List Nat}
    (h : pages skip = Http.raise) (hfe : fetched < maxRecords) :
    fetchLoop pages limit maxRecords (fuel + 1) rows skip fetched calls
      = (Except.error (), calls ++ [skip]) := by
  rw [fetchLoop, if_pos hfe, h]

theorem fetchLoop_stop_status {α : Type} {pages : Nat → Http α} {limit maxRecords fuel : Nat}
    {rows : List α} {skip fetched : Nat} {calls : List Nat} {status : Nat} {results : List α}
    (h : pages skip = Http.resp status results) (hfe : fetched < maxRecords)
    (hst : status ≠ 200) :
    fetchLoop pages limit maxRecords (fuel + 1) rows skip fetched calls
      = (Except.ok rows, calls ++ [skip]) := by
  rw [fetchLoop, if_pos hfe, h]
  simp only [ne_eq, hst, not_false_eq_true, if_true, ite_true]

/-- C3: with page size 1000 and cap 2500 against an endpoint that always
returns a full page, the Paginated Fetcher makes exactly the three calls at
offsets 0, 1000 and 2000 and returns 3000 records — the cap is checked only
between pages, so the result exceeds the nominal cap of 2500. -/
theorem claim3_pagination_overshoot :
    (fetch_reglisting pagesAlwaysFull 2500).2 = [0, 1000, 2000]
    ∧ ∃ rows, (fetch_reglisting pagesAlwaysFull 2500).1 = Except.ok rows
        ∧ rows.length = 3000 ∧ 2500 < rows.length := by
  have e : fetch_reglisting pagesAlwaysFull 2500
      = (Except.ok ([] ++ List.replicate 1000 () ++ List.replicate 1000 () ++ List.replicate 1000 ()),
         [0, 1000, 2000]) := by
    rw [fetch_reglisting]
    rw [@fetchLoop_step_full Unit pagesAlwaysFull 1000 2500 2500 [] 0 0 [] (List.replicate 1000 ())
        rfl (by norm_num) (replicate_isEmpty_false 1000 () (by norm_num))
        (by rw [List.length_replicate]; omega)]
    simp only [List.length_replicate, List.nil_append, List.singleton_append, List.cons_append,
      Nat.zero_add, Nat.reduceAdd]
    rw [@fetchLoop_step_full Unit pagesAlwaysFull 1000 2500 2499 (List.replicate 1000 ()) 1000 1000
        [0] (List.replicate 1000 ())
        rfl (by norm_num) (replicate_isEmpty_false 1000 () (by norm_num))
        (by rw [List.length_replicate]; omega)]
    simp only [List.length_replicate, List.nil_append, List.singleton_append, List.cons_append,
      Nat.reduceAdd]
    rw [@fetchLoop_step_full Unit pagesAlwaysFull 1000 2500 2498
        (List.replicate 1000 () ++ List.replicate 1000 ()) 2000 2000 [0, 1000]
        (List.replicate 1000 ())
        rfl (by norm_num) (replicate_isEmpty_false 1000 () (by norm_num))
        (by rw [List.length_replicate]; omega)]
    simp only [List.length_replicate, List.nil_append, List.singleton_append, List.cons_append,
      Nat.reduceAdd]
    rw [fetchLoop_stop_cap (by norm_num)]
  refine ⟨by rw [e], ⟨_, by rw [e], ?_, ?_⟩⟩
  · simp only [List.length_append, List.length_replicate, List.length_nil]
  · simp only [List.length_append, List.length_replicate, List.length_nil]
    norm_num

/-- C6 counterexample: a full first page followed by a raised timeout on the
second request makes the Paginated Fetcher propagate the exception — the 1000
already-accumulated records are lost rather than returned. -/
theorem claim6_counterexample :
    fetch_reglisting pagesThenRaise 2500 = (Except.error (), [0, 1000])
    ∧ (Except.error () : Except Unit (List Unit)) ≠ Except.ok (List.replicate 1000 ()) := by
  constructor
  · rw [fetch_reglisting]
    rw [@fetchLoop_step_full Unit pagesThenRaise 1000 2500 2500 [] 0 0 [] (List.replicate 1000 ())
        rfl (by norm_num) (replicate_isEmpty_false 1000 () (by norm_num))
        (by rw [List.length_replicate]; omega)]
    simp only [List.length_replicate, List.nil_append, List.singleton_append, List.cons_append,
      Nat.zero_add, Nat.reduceAdd]
    rw [@fetchLoop_step_raise Unit pagesThenRaise 1000 2500 2499 (List.replicate 1000 ()) 1000 1000
        [0] rfl (by norm_num)]
    rfl
  · intro h
    exact Except.noConfusion h

/-- C6 (amended): at any page of the fetch loop, a non-2xx response status
stops the loop and returns exactly the records accumulated so far, but a
raised timeout / connection error propagates as an exception (the accumulated
records are lost), contrary to the claim's "never raised" part. -/
theorem claim6_error_handling {α : Type} (pages : Nat → Http α) (maxRecords fuel : Nat)
    (rows : List α) (skip fetched : Nat) (calls : List Nat)
    (hfe : fetched < maxRecords) :
    (∀ status results, pages skip = Http.resp status results → status ≠ 200 →
        fetchLoop pages 1000 maxRecords (fuel + 1) rows skip fetched calls
          = (Except.ok rows, calls ++ [skip]))
    ∧ (pages skip = Http.raise →
        fetchLoop pages 1000 maxRecords (fuel + 1) rows skip fetched calls
          = (Except.error (), calls ++ [skip])) := by
  constructor
  · intro status results h hst
    exact fetchLoop_stop_status h hfe hst
  · intro h
    exact fetchLoop_step_raise h hfe

/-- C6 witness: the amended statement evaluated at the loop's initial state,
with a 404 endpoint and with a raising endpoint. -/
theorem claim6_witness :
    ((0 : Nat) < 2500
      ∧ fetchLoop (fun _ => Http.resp 404 ([] : List Unit)) 1000 2500 (2500 + 1) [] 0 0 []
          = (Except.ok [], [0]))
    ∧ ((0 : Nat) < 2500
      ∧ fetchLoop (fun _ => (Http.raise : Http Unit)) 1000 2500 (2500 + 1) [] 0 0 []
          = (Except.error (), [0])) := by
  constructor
  · exact ⟨by norm_num,
      (claim6_error_handling (fun _ => Http.resp 404 ([] : List Unit)) 2500 2500 [] 0 0 []
        (by norm_num)).1 404 [] rfl (by norm_num)⟩
  · exact ⟨by norm_num,
      (claim6_error_handling (fun _ => (Http.raise : Http Unit)) 2500 2500 [] 0 0 []
        (by norm_num)).2 rfl⟩

theorem maudeOuter_cons_ok (q0 : Nat → Http EventRec) (rest : List (Nat → Http EventRec))
    (maxRecords i : Nat) (counts0 : List (String × Nat)) (calls : List (Nat × Nat))
    (counts2 : List (String × Nat)) (innerCalls : List Nat)
    (h : maudeInner q0 1000 maxRecords (maxRecords + 1) counts0 0 0 [] = (Except.ok counts2, innerCalls))
    (hne : counts2.isEmpty = false) :
    maudeOuter 1000 maxRecords (q0 :: rest) i counts0 calls
      = (Except.ok counts2, calls ++ innerCalls.map (fun s => (i, s))) := by
  rw [maudeOuter, h]
  simp only [hne, Bool.false_eq_true, if_false, ite_false]

/-- C5 counterexample: the first strategy returns a non-empty result set (one
record, but without any usable date), yet the fetch still issues a request for
the second strategy — call `(1, 0)` is made after strategy 0 returned results. -/
theorem claim5_counterexample :
    maudeStratUndated 0 = Http.resp 200 [⟨none, none⟩]
    ∧ ([(⟨none, none⟩ : EventRec)] : List EventRec) ≠ []
    ∧ (fetch_maude_year_counts [maudeStratUndated, maudeStratEmpty] 5000).2 = [(0, 0), (1, 0)] := by
  refine ⟨rfl, by simp, rfl⟩

/-- C5 (amended): the event fetch stops issuing further strategies as soon as
one strategy has contributed at least one counted (dated) record: if the first
strategy's run ends with a non-empty count table, every request made carries
strategy index 0 and no later strategy is queried.  A strategy returning only
undated records does not stop the sequence (see the counterexample). -/
theorem claim5_strategy_short_circuit (q0 : Nat → Http EventRec)
    (rest : List (Nat → Http EventRec)) (maxRecords : Nat)
    (counts : List (String × Nat)) (innerCalls : List Nat)
    (h : maudeInner q0 1000 maxRecords (maxRecords + 1) [] 0 0 [] = (Except.ok counts, innerCalls))
    (hne : counts ≠ []) :
    (fetch_maude_year_counts (q0 :: rest) maxRecords).2 = innerCalls.map (fun s => (0, s))
    ∧ ∀ c ∈ (fetch_maude_year_counts (q0 :: rest) maxRecords).2, c.1 = 0 := by
  have hie : counts.isEmpty = false := by
    cases counts with
    | nil => exact absurd rfl hne
    | cons a l => rfl
  have houter := maudeOuter_cons_ok q0 rest maxRecords 0 [] [] counts innerCalls h hie
  have hfetch : (fetch_maude_year_counts (q0 :: rest) maxRecords).2
      = innerCalls.map (fun s => (0, s)) := by
    rw [fetch_maude_year_counts, houter]
    simp
  refine ⟨hfetch, ?_⟩
  intro c hc
  rw [hfetch] at hc
  obtain ⟨s, _, rfl⟩ := List.mem_map.mp hc
  rfl

/-- C5 witness: with a first strategy whose single record carries the date
`20240315`, the run counts it, and only strategy 0 is ever queried. -/
theorem claim5_witness :
    maudeInner maudeStratDated 1000 5000 (5000 + 1) [] 0 0 []
        = (Except.ok [("2024", 1)], [0])
    ∧ ([("2024", (1 : Nat))] : List (String × Nat)) ≠ []
    ∧ (fetch_maude_year_counts [maudeStratDated, maudeStratEmpty] 5000).2 = [(0, 0)]
    ∧ ∀ c ∈ (fetch_maude_year_counts [maudeStratDated, maudeStratEmpty] 5000).2, c.1 = 0 := by
  have h := claim5_strategy_short_circuit maudeStratDated [maudeStratEmpty] 5000
    [("2024", 1)] [0] rfl (by simp)
  exact ⟨rfl, by simp, h.1, h.2⟩

/-- C9: the Result Normalizer's output has no duplicate rows (any two records
identical in every output field collapse into one), every input record's
flattened row is present, and every output row comes from some input record —
uniqueness is the full tuple of displayed fields. -/
theorem claim9_exact_duplicate_collapse (rows : List RegListingRecord) :
    (normalize_reglisting_rows rows).Nodup
    ∧ (∀ r ∈ rows, toRow r ∈ normalize_reglisting_rows rows)
    ∧ (∀ row ∈ normalize_reglisting_rows rows, ∃ r ∈ rows, toRow r = row) := by
  refine ⟨drop_duplicates_nodup _, ?_, ?_⟩
  · intro r hr
    rw [normalize_reglisting_rows, mem_drop_duplicates]
    exact List.mem_map_of_mem _ hr
  · intro row hrow
    rw [normalize_reglisting_rows, mem_drop_duplicates] at hrow
    exact List.mem_map.mp hrow

/-- C9 witness: two identical raw records collapse into the single flattened
row. -/
theorem claim9_witness :
    blankRecord ∈ [blankRecord, blankRecord]
    ∧ toRow blankRecord ∈ normalize_reglisting_rows [blankRecord, blankRecord]
    ∧ normalize_reglisting_rows [blankRecord, blankRecord] = [toRow blankRecord] := by
  refine ⟨by simp, ?_, by decide⟩
  exact (claim9_exact_duplicate_collapse [blankRecord, blankRecord]).2.1 blankRecord (by simp)

/-- C10: in every normalized row the Firm Label is
`FirmName ++ " — " ++ City ++ " " ++ State ++ " (" ++ Country ++ ")"`, where
only City and State/Prov fall back to the empty string when absent; an absent
Country or Firm Name renders as the literal string `None`. -/
theorem claim10_firm_label_fallbacks (rows : List RegListingRecord) (fei et : Option String)
    (pc : String) (firm city st country : String) :
    (∀ entry ∈ normalize_with_labels rows, entry.2 = firm_label entry.1)
    ∧ firm_label ⟨fei, some firm, some city, some st, some country, et, pc⟩
        = firm ++ " — " ++ city ++ " " ++ st ++ " (" ++ country ++ ")"
    ∧ firm_label ⟨fei, some firm, none, none, some country, et, pc⟩
        = firm ++ " — " ++ "" ++ " " ++ "" ++ " (" ++ country ++ ")"
    ∧ firm_label ⟨fei, some firm, some city, some st, none, et, pc⟩
        = firm ++ " — " ++ city ++ " " ++ st ++ " (" ++ "None" ++ ")"
    ∧ firm_label ⟨fei, none, some city, some st, some country, et, pc⟩
        = "None" ++ " — " ++ city ++ " " ++ st ++ " (" ++ country ++ ")" := by
  refine ⟨?_, rfl, rfl, rfl, rfl⟩
  intro entry hentry
  rw [normalize_with_labels] at hentry
  obtain ⟨row, _, rfl⟩ := List.mem_map.mp hentry
  rfl

/-- C10 witness: the all-absent row's label is `None —   (None)`, built from
the `None` fallbacks of Firm Name and Country and the empty-string fallbacks
of City and State/Prov. -/
theorem claim10_witness :
    (toRow blankRecord, firm_label (toRow blankRecord)).2
        = firm_label (toRow blankRecord, firm_label (toRow blankRecord)).1
    ∧ firm_label (toRow blankRecord)
        = "None" ++ " — " ++ "" ++ " " ++ "" ++ " (" ++ "None" ++ ")" := by
  constructor
  · exact (claim10_firm_label_fallbacks [blankRecord] none none "" "" "" "" "").1 _ (by decide)
  · rfl

/-- C2 (spec-modelled): the monthly Time-Series Aggregator over the trailing
18-month window returns exactly 18 buckets whose months are strictly
increasing and end at the current month; with zero matching records every
bucket carries count zero; and for every input the output length is exactly
`n`, with empty months present at count zero. -/
theorem claim2_monthly_aggregator (now : Nat) (records : List String) (hnow : 17 ≤ now) :
    (aggregate_monthly now 18 records).length = 18
    ∧ ((aggregate_monthly now 18 records).map Prod.fst).Pairwise (· < ·)
    ∧ now ∈ (aggregate_monthly now 18 records).map Prod.fst
    ∧ (∀ m ∈ (aggregate_monthly now 18 records).map Prod.fst, m ≤ now)
    ∧ (∀ m ∈ month_window now 18, (∀ r ∈ records, parseMonth r ≠ some m) →
        (m, 0) ∈ aggregate_monthly now 18 records)
    ∧ (∀ n, (aggregate_monthly now n records).length = n) := by
  have hmap : ∀ n, (aggregate_monthly now n records).map Prod.fst = month_window now n := by
    intro n
    rw [aggregate_monthly, List.map_map]
    have hid : (Prod.fst ∘ fun m => (m, count_events_month records m)) = id := by
      funext m
      rfl
    rw [hid, List.map_id]
  refine ⟨?_, ?_, ?_, ?_, ?_, ?_⟩
  · rw [aggregate_monthly, List.length_map, month_window, List.length_map, List.length_range]
  · rw [hmap, month_window]
    refine (List.pairwise_map).mpr ?_
    refine (List.pairwise_lt_range 18).imp ?_
    intro a b hab
    omega
  · rw [hmap, month_window]
    refine List.mem_map.mpr ⟨17, by simp, ?_⟩
    show now + 1 - 18 + 17 = now
    omega
  · rw [hmap, month_window]
    intro m hm
    obtain ⟨i, hi, rfl⟩ := List.mem_map.mp hm
    rw [List.mem_range] at hi
    omega
  · intro m hm hnone
    rw [aggregate_monthly]
    refine List.mem_map.mpr ⟨m, hm, ?_⟩
    have hz : count_events_month records m = 0 := by
      rw [count_events_month, List.length_eq_zero, List.filter_eq_nil_iff]
      intro r hr
      simpa using hnone r hr
    show (m, count_events_month records m) = (m, 0)
    rw [hz]
  · intro n
    rw [aggregate_monthly, List.length_map, month_window, List.length_map, List.length_range]

/-- C2 witness: the aggregator at month index 24 (a concrete "current month")
with zero records — exactly 18 buckets, months 7..24 in order, all counts
zero. -/
theorem claim2_witness :
    17 ≤ 24
    ∧ (aggregate_monthly 24 18 []).length = 18
    ∧ aggregate_monthly 24 18 []
        = [(7, 0), (8, 0), (9, 0), (10, 0), (11, 0), (12, 0), (13, 0), (14, 0), (15, 0), (16, 0),
           (17, 0), (18, 0), (19, 0), (20, 0), (21, 0), (22, 0), (23, 0), (24, 0)] := by
  refine ⟨by norm_num, (claim2_monthly_aggregator 24 [] (by norm_num)).1, by decide⟩
